import Mathlib

/-!
Verification development for the shaper-react embedding component
(`ShaperDashboard`). The definitions below shallowly embed the state kept in
the component's refs and the bodies of its effects:

* the JWT token broker: the `resolveJwtRef` waiter queue, the `refreshRef`
  action slot, the `getJwt` function handed to the dashboard instance, and
  the effect that runs when the `jwt` prop changes;
* the `vars` deduplication effect built on `JSON.stringify`;
* the shared script loader effect keyed on `baseUrl`;
* the instance-initialisation effect with dependency array
  `[scriptLoaded, baseUrl, id]` together with its cleanup.

Machine steps return the successor state paired with the list of observable
events (promise resolutions, refresh invocations, `update`/`destroy` calls,
error callbacks) emitted during the step, in the order they happen in the
source.
-/

/-! ## Token broker

State held in the component: `resolveJwtRef.current` is a FIFO list of
pending promise resolvers (modelled by waiter ids allocated in order) and
`refreshRef.current` is the currently installed refresh action (modelled by
an action id). -/

structure BrokerState where
  pending : List Nat
  nextId : Nat
  refresh : Nat
deriving DecidableEq, Repr

inductive BrokerEv where
  | resolved (waiter : Nat) (value : String)
  | refreshInvoked (action : Nat)
deriving DecidableEq, Repr

def initBroker : BrokerState := ⟨[], 0, 0⟩

/-- The `getJwt` closure passed to `window.shaper.dashboard`: it pushes a
fresh resolver onto `resolveJwtRef.current` and then invokes
`refreshRef.current()` once. -/
def getJwt (s : BrokerState) : BrokerState × List BrokerEv :=
  (⟨s.pending ++ [s.nextId], s.nextId + 1, s.refresh⟩,
   [BrokerEv.refreshInvoked s.refresh])

/-- The effect with dependency `[jwt]`: `if (jwt) { for resolver: resolve(jwt);
queue := [] }`. A `jwt` prop that is `undefined` or the empty string is falsy
in JavaScript, so the body does nothing. -/
def jwtEffect : Option String → BrokerState → BrokerState × List BrokerEv
  | none, s => (s, [])
  | some v, s =>
    if v = "" then (s, [])
    else (⟨[], s.nextId, s.refresh⟩, s.pending.map fun w => BrokerEv.resolved w v)

/-- The effect with dependency `[refreshJwt]`: `refreshRef.current := refreshJwt`. -/
def setRefresh (a : Nat) (s : BrokerState) : BrokerState :=
  ⟨s.pending, s.nextId, a⟩

/-- `n` consecutive `getJwt` calls. -/
def getJwtN : Nat → BrokerState → BrokerState × List BrokerEv
  | 0, s => (s, [])
  | n + 1, s =>
    ((getJwtN n (getJwt s).1).1, (getJwt s).2 ++ (getJwtN n (getJwt s).1).2)

/-! ## Variables snapshots and `JSON.stringify`

`ShaperDashboardVars` is `Record<string, string | string[]> | undefined`.
A defined record is modelled as its list of key/value pairs in insertion
order, which is exactly the order `JSON.stringify` serialises. -/

inductive VarValue where
  | str (s : String)
  | arr (xs : List String)
deriving DecidableEq, Repr

abbrev VarsRecord := List (String × VarValue)

abbrev ShaperDashboardVars := Option VarsRecord

def hexDigit (n : Nat) : Char :=
  if n < 10 then Char.ofNat (48 + n) else Char.ofNat (87 + n)

def hex4 (n : Nat) : String :=
  String.mk [hexDigit (n / 4096 % 16), hexDigit (n / 256 % 16),
             hexDigit (n / 16 % 16), hexDigit (n % 16)]

/-- `JSON.stringify` escaping of a single character inside a string literal. -/
def escChar (c : Char) : String :=
  if c = '"' then "\\\""
  else if c = '\\' then "\\\\"
  else if c = '\x08' then "\\b"
  else if c = '\x09' then "\\t"
  else if c = '\x0a' then "\\n"
  else if c = '\x0c' then "\\f"
  else if c = '\x0d' then "\\r"
  else if c.toNat < 32 then "\\u" ++ hex4 c.toNat
  else String.singleton c

def jsonEscape (s : String) : String :=
  s.data.foldl (fun acc c => acc ++ escChar c) ""

def jsonStr (s : String) : String := "\"" ++ jsonEscape s ++ "\""

def stringifyValue : VarValue → String
  | VarValue.str s => jsonStr s
  | VarValue.arr xs => "[" ++ String.intercalate "," (xs.map jsonStr) ++ "]"

def stringifyRecord (kvs : VarsRecord) : String :=
  "\x7b" ++ String.intercalate ","
      (kvs.map fun kv => jsonStr kv.1 ++ ":" ++ stringifyValue kv.2) ++ "\x7d"

/-- `JSON.stringify(vars)`: `JSON.stringify(undefined)` is `undefined`
(modelled as `none`), matching the initial value of `varsJsonRef.current`. -/
def stringify : ShaperDashboardVars → Option String
  | none => none
  | some kvs => some (stringifyRecord kvs)

/-- Order-insensitive structural (map) equality of two records: every key of
either record looks up to the same value in both. This is the "deep/structural
value equality regardless of key insertion order" the spec speaks about; it is
NOT what the code computes. -/
def varsStructEq (a b : VarsRecord) : Bool :=
  (a.all fun kv => List.lookup kv.1 a == List.lookup kv.1 b) &&
  (b.all fun kv => List.lookup kv.1 a == List.lookup kv.1 b)

/-- State touched by the vars effect: `varsRef.current`, `varsJsonRef.current`
and whether `dashboardRef.current` is non-null. -/
structure VarsState where
  varsRef : ShaperDashboardVars
  varsJsonRef : Option String
  live : Bool
deriving DecidableEq, Repr

def initVarsState : VarsState := ⟨none, none, false⟩

/-- The effect with dependency `[vars]`: compare `JSON.stringify(vars)` with
`varsJsonRef.current`; on difference store the snapshot and its serialisation
and, if an instance is live, call `dashboardRef.current.update({ vars })`.
The emitted list holds the `vars` argument of each `update` call. -/
def varsEffect (vars : ShaperDashboardVars) (s : VarsState) :
    VarsState × List ShaperDashboardVars :=
  if stringify vars = s.varsJsonRef then (s, [])
  else (⟨vars, stringify vars, s.live⟩, if s.live then [vars] else [])

/-- `vars: varsRef.current` — the initial snapshot handed to
`window.shaper.dashboard` at instance construction. -/
def createVarsArg (s : VarsState) : ShaperDashboardVars := s.varsRef

def varsEffects : VarsState → List ShaperDashboardVars →
    VarsState × List ShaperDashboardVars
  | s, [] => (s, [])
  | s, v :: rest =>
    ((varsEffects (varsEffect v s).1 rest).1,
     (varsEffect v s).2 ++ (varsEffects (varsEffect v s).1 rest).2)

def exA : VarsRecord := [("a", VarValue.str "1"), ("b", VarValue.str "2")]

def exB : VarsRecord := [("b", VarValue.str "2"), ("a", VarValue.str "1")]

def exLiveState : VarsState := ⟨none, none, true⟩

/-! ## Script loader

Shared page state touched by the effect with dependency `[baseUrl]`: the
process-global factory slot `window.shaper.dashboard`, the script tags in the
document with their attached load/error listeners, and the notifications
delivered to mounted components. Components are identified by ids; `loaded`
records, in order, the components whose `setScriptLoaded(true)` ran, and
`errors` records the `onLoadError` callback invocations with their message. -/

structure ScriptTag where
  url : String
  loadListeners : List Nat
  errorListeners : List Nat
deriving DecidableEq, Repr

structure LoaderWorld where
  registered : Bool
  tags : List ScriptTag
  loaded : List Nat
  errors : List (Nat × String)
deriving DecidableEq, Repr

def initWorld : LoaderWorld := ⟨false, [], [], []⟩

def scriptUrlOf (baseUrl : String) : String := baseUrl ++ "/embed/shaper.js"

/-- `document.querySelector('script[src=...]')`. -/
def findTag (tags : List ScriptTag) (url : String) : Option ScriptTag :=
  tags.find? fun t => t.url == url

/-- `addEventListener` for both load and error on the existing tag. -/
def addListeners (tags : List ScriptTag) (url : String) (cid : Nat) :
    List ScriptTag :=
  tags.map fun t =>
    if t.url == url then
      ⟨t.url, t.loadListeners ++ [cid], t.errorListeners ++ [cid]⟩
    else t

/-- The script effect body run by component `cid` on mount: if the factory is
registered, set `scriptLoaded` immediately; else if a tag for the URL exists,
attach listeners; else create and append one tag with this component's
load/error handlers. -/
def scriptEffect (cid : Nat) (baseUrl : String) (w : LoaderWorld) : LoaderWorld :=
  if w.registered then ⟨w.registered, w.tags, w.loaded ++ [cid], w.errors⟩
  else
    match findTag w.tags (scriptUrlOf baseUrl) with
    | some _ => ⟨w.registered, addListeners w.tags (scriptUrlOf baseUrl) cid,
                 w.loaded, w.errors⟩
    | none => ⟨w.registered,
               w.tags ++ [⟨scriptUrlOf baseUrl, [cid], [cid]⟩],
               w.loaded, w.errors⟩

/-- The script for `url` loads and executes: it registers the global factory
slot and the load event notifies every attached load listener, in order. -/
def fireLoad (url : String) (w : LoaderWorld) : LoaderWorld :=
  match findTag w.tags url with
  | some t => ⟨true, w.tags, w.loaded ++ t.loadListeners, w.errors⟩
  | none => w

def loadErrorMsg (url : String) : String :=
  "Failed to load Shaper script from " ++ url

/-- The script for `url` fails to load: every attached error listener calls
`onLoadErrorRef.current` with the failure message; nothing else changes (the
tag stays in the document, the factory slot stays unregistered, no reload is
initiated). -/
def fireError (url : String) (w : LoaderWorld) : LoaderWorld :=
  match findTag w.tags url with
  | some t => ⟨w.registered, w.tags, w.loaded,
               w.errors ++ t.errorListeners.map fun c => (c, loadErrorMsg url)⟩
  | none => w

/-- K components mount one after the other, each running the script effect. -/
def mountAll : List Nat → String → LoaderWorld → LoaderWorld
  | [], _, w => w
  | c :: cs, baseUrl, w => mountAll cs baseUrl (scriptEffect c baseUrl w)

/-! ## Instance lifecycle

React semantics of the initialisation effect with dependency array
`[scriptLoaded, baseUrl, id]`: on every render whose dependencies differ from
the previous run, the previously registered cleanup (if any) runs, then the
effect body runs. The body bails out (registering no cleanup) unless the
script is loaded, the global factory is registered and no instance exists;
otherwise it constructs the instance and registers the cleanup that destroys
whatever `dashboardRef.current` holds and nulls it. `containerRef` is always
attached once effects run and is omitted. Instances carry ids allocated in
creation order. -/

structure MState where
  dashboard : Option Nat
  nextInst : Nat
  cleanupRegistered : Bool
  prevDeps : Option (Bool × String × String)
deriving DecidableEq, Repr

inductive MEvent where
  | created (i : Nat)
  | destroyed (i : Nat)
deriving DecidableEq, Repr

def initM : MState := ⟨none, 0, false, none⟩

/-- The cleanup returned by the effect body: `if (dashboardRef.current)
{ destroy(); dashboardRef.current = null }`. It runs only when registered. -/
def runCleanup (s : MState) : MState × List MEvent :=
  if s.cleanupRegistered then
    match s.dashboard with
    | some i => (⟨none, s.nextInst, false, s.prevDeps⟩, [MEvent.destroyed i])
    | none => (⟨none, s.nextInst, false, s.prevDeps⟩, [])
  else (s, [])

/-- The effect body: bail out (no cleanup registered) unless `scriptLoaded`,
`window.shaper?.dashboard` and no current instance; otherwise call the
factory and register the cleanup. -/
def effectBody (scriptLoaded registered : Bool) (s : MState) :
    MState × List MEvent :=
  if !scriptLoaded || !registered || s.dashboard.isSome then
    (⟨s.dashboard, s.nextInst, false, s.prevDeps⟩, [])
  else
    (⟨some s.nextInst, s.nextInst + 1, true, s.prevDeps⟩,
     [MEvent.created s.nextInst])

def setDeps (deps : Bool × String × String) (s : MState) : MState :=
  ⟨s.dashboard, s.nextInst, s.cleanupRegistered, some deps⟩

/-- One render: if the dependency triple `(scriptLoaded, baseUrl, id)` equals
the previous run's, React skips the effect entirely; otherwise the previous
cleanup runs, then the body. -/
def renderStep (sl reg : Bool) (b did : String) (s : MState) :
    MState × List MEvent :=
  if s.prevDeps = some (sl, b, did) then (s, [])
  else
    ((effectBody sl reg (setDeps (sl, b, did) (runCleanup s).1)).1,
     (runCleanup s).2 ++
       (effectBody sl reg (setDeps (sl, b, did) (runCleanup s).1)).2)

/-- On unmount the registered cleanup runs one final time. -/
def unmountStep (s : MState) : MState × List MEvent := runCleanup s

structure RenderInput where
  scriptLoaded : Bool
  registered : Bool
  baseUrl : String
  did : String
deriving DecidableEq, Repr

def runRenders : MState → List RenderInput → MState × List MEvent
  | s, [] => (s, [])
  | s, r :: rest =>
    ((runRenders (renderStep r.scriptLoaded r.registered r.baseUrl r.did s).1
        rest).1,
     (renderStep r.scriptLoaded r.registered r.baseUrl r.did s).2 ++
       (runRenders (renderStep r.scriptLoaded r.registered r.baseUrl r.did s).1
        rest).2)

/-- All `create`/`destroy` events across one mount → renders → unmount
lifetime. -/
def runLifetime (rs : List RenderInput) : List MEvent :=
  (runRenders initM rs).2 ++ (unmountStep (runRenders initM rs).1).2

def isCreated (i : Nat) : MEvent → Bool
  | MEvent.created j => j == i
  | MEvent.destroyed _ => false

def isDestroyed (i : Nat) : MEvent → Bool
  | MEvent.destroyed j => j == i
  | MEvent.created _ => false

def countCreated (es : List MEvent) (i : Nat) : Nat := es.countP (isCreated i)

def countDestroyed (es : List MEvent) (i : Nat) : Nat :=
  es.countP (isDestroyed i)

/-- Bookkeeping invariant tying the lifecycle state to the events emitted so
far: every allocated instance was created exactly once; every allocated
instance except the currently live one was destroyed exactly once; a live
instance implies a registered cleanup. -/
def MInv (s : MState) (es : List MEvent) : Prop :=
  (∀ i, countCreated es i = if i < s.nextInst then 1 else 0) ∧
  (∀ i, countDestroyed es i =
    if s.dashboard = some i then 0 else if i < s.nextInst then 1 else 0) ∧
  (∀ i, s.dashboard = some i → i < s.nextInst ∧ s.cleanupRegistered = true)

/-- A mount where the script finishes loading after the first render and the
`id` prop then changes from "d" to "d2". -/
def idChangeTrace : List RenderInput :=
  [⟨false, false, "b", "d"⟩, ⟨true, true, "b", "d"⟩, ⟨true, true, "b", "d2"⟩]

/-! ## Theorems -/

theorem getJwtN_state (N : Nat) (s : BrokerState) :
    (getJwtN N s).1 =
      ⟨s.pending ++ List.range' s.nextId N, s.nextId + N, s.refresh⟩ := by
  induction N generalizing s with
  | zero => simp [getJwtN]
  | succ n ih =>
    simp only [getJwtN, getJwt, ih, BrokerState.mk.injEq]
    refine ⟨?_, by omega, trivial⟩
    rw [List.range'_succ]
    simp

/-- C1 (claim as stated, at the concrete input it fails on): one pending
`getJwt` request followed by supplying the token value `""` resolves nothing
and leaves the waiter queued, contradicting "all N pending promises resolve
to exactly v ... and the pending-waiter queue is empty afterwards" for
`N = 1`, `v = ""`. -/
theorem c1_counterexample :
    (jwtEffect (some "") (getJwtN 1 initBroker).1).2 = [] ∧
    (jwtEffect (some "") (getJwtN 1 initBroker).1).1.pending = [0] := by
  decide

/-- C1 amended: for every sequence of N `getJwt` calls made while the waiter
queue is empty, followed by one supply of a non-empty token value `v`, all N
pending promises resolve to exactly `v`, in the order the requests were
queued, and the waiter queue is empty afterwards. -/
theorem c1_fifo_resolution (s : BrokerState) (N : Nat) (v : String)
    (hp : s.pending = []) (hv : v ≠ "") :
    (getJwtN N s).1.pending = List.range' s.nextId N ∧
    (jwtEffect (some v) (getJwtN N s).1).2 =
      (List.range' s.nextId N).map (fun w => BrokerEv.resolved w v) ∧
    (jwtEffect (some v) (getJwtN N s).1).1.pending = [] := by
  rw [getJwtN_state]
  simp [jwtEffect, hp, hv]

theorem c1_fifo_resolution_witness :
    (getJwtN 3 initBroker).1.pending = List.range' 0 3 ∧
    (jwtEffect (some "tok") (getJwtN 3 initBroker).1).2 =
      (List.range' 0 3).map (fun w => BrokerEv.resolved w "tok") ∧
    (jwtEffect (some "tok") (getJwtN 3 initBroker).1).1.pending = [] :=
  c1_fifo_resolution initBroker 3 "tok" rfl (by decide)

/-- C4: supplying any `jwt` prop value while zero waiters are pending leaves
the broker state exactly unchanged and emits no events (nothing is cached);
a `getJwt` call issued afterwards triggers one fresh refresh invocation,
its waiter stays pending (no resolution event), and it resolves only from a
subsequent supply of a new non-empty token value `w`, with exactly `w`. -/
theorem c4_no_caching (s : BrokerState) (j : Option String) (w : String)
    (hp : s.pending = []) (hw : w ≠ "") :
    jwtEffect j s = (s, []) ∧
    (getJwt s).2 = [BrokerEv.refreshInvoked s.refresh] ∧
    (getJwt s).1.pending = [s.nextId] ∧
    (jwtEffect (some w) (getJwt s).1).2 = [BrokerEv.resolved s.nextId w] := by
  rcases s with ⟨p, nid, r⟩
  dsimp only at hp
  subst hp
  refine ⟨?_, rfl, by simp [getJwt], ?_⟩
  · cases j with
    | none => rfl
    | some v =>
      by_cases hv : v = "" <;> simp [jwtEffect, hv]
  · simp [getJwt, jwtEffect, hw]

theorem c4_no_caching_witness :
    jwtEffect (some "old") initBroker = (initBroker, []) ∧
    (getJwt initBroker).2 = [BrokerEv.refreshInvoked 0] ∧
    (getJwt initBroker).1.pending = [0] ∧
    (jwtEffect (some "new") (getJwt initBroker).1).2 =
      [BrokerEv.resolved 0 "new"] :=
  c4_no_caching initBroker (some "old") "new" rfl (by decide)

/-- C5: every `getJwt` call invokes the currently installed refresh action
exactly once, whatever waiters are already pending; installing a new refresh
action changes what the next call invokes, leaves the pending queue
untouched, and does not change how or with what value pending waiters
resolve. -/
theorem c5_refresh_per_call (s : BrokerState) (a : Nat) (j : Option String) :
    (getJwt s).2 = [BrokerEv.refreshInvoked s.refresh] ∧
    (setRefresh a s).pending = s.pending ∧
    (getJwt (setRefresh a s)).2 = [BrokerEv.refreshInvoked a] ∧
    (jwtEffect j (setRefresh a s)).2 = (jwtEffect j s).2 ∧
    (jwtEffect j (setRefresh a s)).1.pending = (jwtEffect j s).1.pending := by
  refine ⟨rfl, rfl, rfl, ?_, ?_⟩ <;>
    · cases j with
      | none => rfl
      | some v => by_cases hv : v = "" <;> simp [jwtEffect, setRefresh, hv]

/-- C9: the `jwt` effect body is guarded by JavaScript truthiness, so setting
the `jwt` prop to the empty string resolves no pending waiter and leaves the
whole broker state (in particular all N pending waiters) unchanged. -/
theorem c9_empty_jwt_noop (s : BrokerState) :
    jwtEffect (some "") s = (s, []) := by
  simp [jwtEffect]

theorem varsEffect_json (v : ShaperDashboardVars) (s : VarsState) :
    (varsEffect v s).1.varsJsonRef = stringify v := by
  unfold varsEffect
  split
  · next h => exact h.symm
  · rfl

theorem varsEffect_live (v : ShaperDashboardVars) (s : VarsState) :
    (varsEffect v s).1.live = s.live := by
  unfold varsEffect
  split <;> rfl

theorem varsEffect_events_not_live (v : ShaperDashboardVars) (s : VarsState)
    (h : s.live = false) : (varsEffect v s).2 = [] := by
  unfold varsEffect
  split
  · rfl
  · simp [h]

theorem varsEffect_ref (v : ShaperDashboardVars) (s : VarsState) :
    (varsEffect v s).1.varsRef = s.varsRef ∨ (varsEffect v s).1.varsRef = v := by
  unfold varsEffect
  split
  · exact Or.inl rfl
  · exact Or.inr rfl

theorem varsEffect_inv (v : ShaperDashboardVars) (s : VarsState)
    (h : s.varsJsonRef = stringify s.varsRef) :
    (varsEffect v s).1.varsJsonRef = stringify (varsEffect v s).1.varsRef := by
  unfold varsEffect
  split
  · exact h
  · rfl

theorem varsEffect_eq_json (w : ShaperDashboardVars) (t : VarsState)
    (h : stringify w = t.varsJsonRef) : varsEffect w t = (t, []) := by
  unfold varsEffect
  rw [if_pos h]

theorem varsEffect_ne_json (w : ShaperDashboardVars) (t : VarsState)
    (h : ¬stringify w = t.varsJsonRef) (hl : t.live = true) :
    varsEffect w t = (⟨w, stringify w, t.live⟩, [w]) := by
  unfold varsEffect
  rw [if_neg h, hl]
  simp

/-- C2 (claim as stated, refuted at a concrete input): the records
`exA = {a:"1", b:"2"}` and `exB = {b:"2", a:"1"}` are structurally equal as
maps, yet after `exA` is observed by a live component, observing `exB` emits a
second `update` call: the comparison is on `JSON.stringify` output, which is
sensitive to key insertion order. -/
theorem c2_counterexample :
    varsStructEq exA exB = true ∧
    (varsEffect (some exA) exLiveState).2 = [some exA] ∧
    (varsEffect (some exB) (varsEffect (some exA) exLiveState).1).2 =
      [some exB] := by
  decide

/-- C2 amended: whether a new snapshot is forwarded via `update` is decided by
equality of its `JSON.stringify` serialisation with the stored serialisation
of the previously accepted snapshot — value-based but key-order-sensitive: a
snapshot serialising identically triggers no second `update` call and leaves
the state unchanged; a snapshot serialising differently triggers exactly one
`update` call carrying the new value. -/
theorem c2_json_dedup (s : VarsState) (v w : ShaperDashboardVars)
    (hlive : s.live = true) :
    (varsEffect v s).1.varsJsonRef = stringify v ∧
    (stringify w = stringify v →
      varsEffect w (varsEffect v s).1 = ((varsEffect v s).1, [])) ∧
    (stringify w ≠ stringify v →
      (varsEffect w (varsEffect v s).1).2 = [w] ∧
      (varsEffect w (varsEffect v s).1).1.varsRef = w) := by
  have hj := varsEffect_json v s
  have hl := (varsEffect_live v s).trans hlive
  refine ⟨hj, fun hw => varsEffect_eq_json w _ (hw.trans hj.symm), fun hw => ?_⟩
  have hne : ¬stringify w = (varsEffect v s).1.varsJsonRef := by
    rw [hj]; exact hw
  rw [varsEffect_ne_json w _ hne hl]
  exact ⟨rfl, rfl⟩

theorem c2_json_dedup_witness :
    (varsEffect (some exA) exLiveState).1.varsJsonRef = stringify (some exA) ∧
    (stringify (some exA) = stringify (some exA) →
      varsEffect (some exA) (varsEffect (some exA) exLiveState).1 =
        ((varsEffect (some exA) exLiveState).1, [])) ∧
    (stringify (some exA) ≠ stringify (some exA) →
      (varsEffect (some exA) (varsEffect (some exA) exLiveState).1).2 =
        [some exA] ∧
      (varsEffect (some exA) (varsEffect (some exA) exLiveState).1).1.varsRef =
        some exA) :=
  c2_json_dedup exLiveState (some exA) (some exA) rfl

theorem varsEffects_not_live (vs : List ShaperDashboardVars) (s : VarsState)
    (h : s.live = false) :
    (varsEffects s vs).2 = [] ∧ (varsEffects s vs).1.live = false := by
  induction vs generalizing s with
  | nil => exact ⟨rfl, h⟩
  | cons v rest ih =>
    have h1 : (varsEffect v s).1.live = false := (varsEffect_live v s).trans h
    obtain ⟨e2, l2⟩ := ih (varsEffect v s).1 h1
    exact ⟨by simp [varsEffects, varsEffect_events_not_live v s h, e2], l2⟩

theorem varsEffects_json_last (vs : List ShaperDashboardVars) (s : VarsState)
    (vlast : ShaperDashboardVars) (h : vs.getLast? = some vlast) :
    (varsEffects s vs).1.varsJsonRef = stringify vlast := by
  induction vs generalizing s with
  | nil => cases h
  | cons v rest ih =>
    cases rest with
    | nil =>
      simp only [List.getLast?_singleton, Option.some.injEq] at h
      subst h
      exact varsEffect_json v s
    | cons w ws =>
      have h' : (w :: ws).getLast? = some vlast := by
        simpa [List.getLast?_cons_cons] using h
      exact ih _ h'

theorem varsEffects_inv (vs : List ShaperDashboardVars) (s : VarsState)
    (h : s.varsJsonRef = stringify s.varsRef) :
    (varsEffects s vs).1.varsJsonRef =
      stringify (varsEffects s vs).1.varsRef := by
  induction vs generalizing s with
  | nil => exact h
  | cons v rest ih => exact ih _ (varsEffect_inv v s h)

theorem varsEffects_ref_mem (vs : List ShaperDashboardVars) (s : VarsState) :
    (varsEffects s vs).1.varsRef = s.varsRef ∨
      (varsEffects s vs).1.varsRef ∈ vs := by
  induction vs generalizing s with
  | nil => exact Or.inl rfl
  | cons v rest ih =>
    have hstep : (varsEffects s (v :: rest)).1 =
        (varsEffects (varsEffect v s).1 rest).1 := rfl
    rw [hstep]
    rcases ih (varsEffect v s).1 with h | h
    · rcases varsEffect_ref v s with h2 | h2
      · exact Or.inl (h.trans h2)
      · exact Or.inr (by rw [h, h2]; exact List.mem_cons_self v rest)
    · exact Or.inr (List.mem_cons_of_mem v h)

/-- C10: while no instance is live, an observed snapshot that serialises
differently from the stored one updates `varsRef` without any `update` call;
a whole sequence of snapshots observed before creation emits no `update`
call, and the initial vars handed to the instance at construction
(`vars: varsRef.current`) serialise exactly like the most recently observed
snapshot and are one of the observed snapshots (or the initial ref value). -/
theorem c10_buffered_vars (s : VarsState) (v : ShaperDashboardVars)
    (vs : List ShaperDashboardVars) (vlast : ShaperDashboardVars)
    (hlive : s.live = false) (hinv : s.varsJsonRef = stringify s.varsRef)
    (hlast : vs.getLast? = some vlast) :
    (stringify v ≠ s.varsJsonRef →
      (varsEffect v s).1.varsRef = v ∧ (varsEffect v s).2 = []) ∧
    (varsEffects s vs).2 = [] ∧
    stringify (createVarsArg (varsEffects s vs).1) = stringify vlast ∧
    (createVarsArg (varsEffects s vs).1 = s.varsRef ∨
      createVarsArg (varsEffects s vs).1 ∈ vs) := by
  refine ⟨fun hne => ?_, (varsEffects_not_live vs s hlive).1, ?_,
    varsEffects_ref_mem vs s⟩
  · constructor
    · unfold varsEffect
      rw [if_neg hne]
    · exact varsEffect_events_not_live v s hlive
  · simp only [createVarsArg]
    rw [← varsEffects_inv vs s hinv, varsEffects_json_last vs s vlast hlast]

theorem c10_buffered_vars_witness :
    (stringify (some exA) ≠ initVarsState.varsJsonRef →
      (varsEffect (some exA) initVarsState).1.varsRef = some exA ∧
      (varsEffect (some exA) initVarsState).2 = []) ∧
    (varsEffects initVarsState [some exA, some exA, some exB]).2 = [] ∧
    stringify (createVarsArg
      (varsEffects initVarsState [some exA, some exA, some exB]).1) =
      stringify (some exB) ∧
    (createVarsArg
        (varsEffects initVarsState [some exA, some exA, some exB]).1 =
        initVarsState.varsRef ∨
      createVarsArg
        (varsEffects initVarsState [some exA, some exA, some exB]).1 ∈
        [some exA, some exA, some exB]) :=
  c10_buffered_vars initVarsState (some exA) [some exA, some exA, some exB]
    (some exB) rfl rfl rfl

theorem scriptEffect_create (c : Nat) (baseUrl : String) (loaded : List Nat)
    (errors : List (Nat × String)) :
    scriptEffect c baseUrl ⟨false, [], loaded, errors⟩ =
      ⟨false, [⟨scriptUrlOf baseUrl, [c], [c]⟩], loaded, errors⟩ := by
  simp [scriptEffect, findTag]

theorem scriptEffect_attach (c : Nat) (baseUrl : String) (ls es loaded : List Nat)
    (errors : List (Nat × String)) :
    scriptEffect c baseUrl
        ⟨false, [⟨scriptUrlOf baseUrl, ls, es⟩], loaded, errors⟩ =
      ⟨false, [⟨scriptUrlOf baseUrl, ls ++ [c], es ++ [c]⟩], loaded, errors⟩ := by
  simp [scriptEffect, findTag, addListeners]

theorem mountAll_one_tag (cids : List Nat) (baseUrl : String)
    (ls es loaded : List Nat) (errors : List (Nat × String)) :
    mountAll cids baseUrl
        ⟨false, [⟨scriptUrlOf baseUrl, ls, es⟩], loaded, errors⟩ =
      ⟨false, [⟨scriptUrlOf baseUrl, ls ++ cids, es ++ cids⟩], loaded, errors⟩ := by
  induction cids generalizing ls es with
  | nil => simp [mountAll]
  | cons d ds ih =>
    show mountAll ds baseUrl
        (scriptEffect d baseUrl
          ⟨false, [⟨scriptUrlOf baseUrl, ls, es⟩], loaded, errors⟩) = _
    rw [scriptEffect_attach, ih]
    simp

theorem mountAll_from_empty (cids : List Nat) (c : Nat) (baseUrl : String) :
    mountAll (c :: cids) baseUrl initWorld =
      ⟨false, [⟨scriptUrlOf baseUrl, c :: cids, c :: cids⟩], [], []⟩ := by
  show mountAll cids baseUrl (scriptEffect c baseUrl initWorld) = _
  rw [show scriptEffect c baseUrl initWorld =
      scriptEffect c baseUrl ⟨false, [], [], []⟩ from rfl,
    scriptEffect_create, mountAll_one_tag]
  simp

theorem addListeners_urls (tags : List ScriptTag) (url : String) (cid : Nat) :
    (addListeners tags url cid).map ScriptTag.url = tags.map ScriptTag.url := by
  induction tags with
  | nil => rfl
  | cons t ts ih =>
    simp only [addListeners, List.map_cons] at ih ⊢
    refine congrArg₂ List.cons ?_ ih
    split <;> rfl

theorem scriptEffect_urls (d : Nat) (baseUrl : String) (w : LoaderWorld) :
    (scriptEffect d baseUrl w).tags.map ScriptTag.url =
        w.tags.map ScriptTag.url ∨
      (scriptEffect d baseUrl w).tags.map ScriptTag.url =
        w.tags.map ScriptTag.url ++ [scriptUrlOf baseUrl] := by
  unfold scriptEffect
  split
  · exact Or.inl rfl
  · split
    · exact Or.inl (addListeners_urls w.tags (scriptUrlOf baseUrl) d)
    · right
      simp

theorem fireLoad_tags (u : String) (w : LoaderWorld) :
    (fireLoad u w).tags = w.tags := by
  unfold fireLoad
  split <;> rfl

theorem fireError_tags (u : String) (w : LoaderWorld) :
    (fireError u w).tags = w.tags := by
  unfold fireError
  split <;> rfl

/-- C6: K ≥ 1 components mounting with the same `baseUrl` onto a clean page
insert exactly one script tag carrying all their listeners; when the load
completes, every one of the K components is notified (its `setScriptLoaded`
runs), in mount order, and the tag remains in the document; a component
mounting after a successful load resolves immediately without touching the
tags; no operation of the loader ever removes a tag (a script effect
preserves the tag list or appends one tag, load/error events preserve it
exactly). -/
theorem c6_single_script_load (cids : List Nat) (c : Nat) (baseUrl : String) :
    (mountAll (c :: cids) baseUrl initWorld).tags =
      [⟨scriptUrlOf baseUrl, c :: cids, c :: cids⟩] ∧
    fireLoad (scriptUrlOf baseUrl) (mountAll (c :: cids) baseUrl initWorld) =
      ⟨true, [⟨scriptUrlOf baseUrl, c :: cids, c :: cids⟩], c :: cids, []⟩ ∧
    (∀ (d : Nat) (w : LoaderWorld), w.registered = true →
      scriptEffect d baseUrl w = ⟨true, w.tags, w.loaded ++ [d], w.errors⟩) ∧
    (∀ (d : Nat) (w : LoaderWorld),
      (scriptEffect d baseUrl w).tags.map ScriptTag.url =
          w.tags.map ScriptTag.url ∨
        (scriptEffect d baseUrl w).tags.map ScriptTag.url =
          w.tags.map ScriptTag.url ++ [scriptUrlOf baseUrl]) ∧
    (∀ (u : String) (w : LoaderWorld),
      (fireLoad u w).tags = w.tags ∧ (fireError u w).tags = w.tags) := by
  rw [mountAll_from_empty]
  refine ⟨rfl, by simp [fireLoad, findTag], fun d w hw => ?_,
    fun d w => scriptEffect_urls d baseUrl w,
    fun u w => ⟨fireLoad_tags u w, fireError_tags u w⟩⟩
  simp [scriptEffect, hw]

theorem c6_single_script_load_witness :
    (mountAll [1, 2, 3] "http://h" initWorld).tags =
      [⟨scriptUrlOf "http://h", [1, 2, 3], [1, 2, 3]⟩] ∧
    fireLoad (scriptUrlOf "http://h") (mountAll [1, 2, 3] "http://h" initWorld) =
      ⟨true, [⟨scriptUrlOf "http://h", [1, 2, 3], [1, 2, 3]⟩], [1, 2, 3], []⟩ ∧
    (∀ (d : Nat) (w : LoaderWorld), w.registered = true →
      scriptEffect d "http://h" w = ⟨true, w.tags, w.loaded ++ [d], w.errors⟩) ∧
    (∀ (d : Nat) (w : LoaderWorld),
      (scriptEffect d "http://h" w).tags.map ScriptTag.url =
          w.tags.map ScriptTag.url ∨
        (scriptEffect d "http://h" w).tags.map ScriptTag.url =
          w.tags.map ScriptTag.url ++ [scriptUrlOf "http://h"]) ∧
    (∀ (u : String) (w : LoaderWorld),
      (fireLoad u w).tags = w.tags ∧ (fireError u w).tags = w.tags) :=
  c6_single_script_load [2, 3] 1 "http://h"

/-- C8: when the script load fails after K ≥ 1 components mounted onto a clean
page, every mounted component's `onLoadError` is called with exactly
`"Failed to load Shaper script from " ++ baseUrl ++ "/embed/shaper.js"`, no
component ever has `scriptLoaded` set (and with `scriptLoaded` false the
initialisation effect never constructs an instance, so the component never
becomes Live), the factory slot stays unregistered, the failed tag stays in
the document unchanged, and no retry happens: a later mount while the tag is
present only attaches listeners and inserts no new tag. -/
theorem c8_load_failure (cids : List Nat) (c : Nat) (baseUrl : String) :
    fireError (scriptUrlOf baseUrl) (mountAll (c :: cids) baseUrl initWorld) =
      ⟨false, [⟨scriptUrlOf baseUrl, c :: cids, c :: cids⟩], [],
       (c :: cids).map fun d =>
         (d, "Failed to load Shaper script from " ++ baseUrl ++
             "/embed/shaper.js")⟩ ∧
    (∀ (reg : Bool) (s : MState),
      (effectBody false reg s).2 = [] ∧
      (effectBody false reg s).1.dashboard = s.dashboard) ∧
    (∀ (d : Nat) (w : LoaderWorld), w.registered = false →
      findTag w.tags (scriptUrlOf baseUrl) ≠ none →
      (scriptEffect d baseUrl w).tags.map ScriptTag.url =
        w.tags.map ScriptTag.url) := by
  rw [mountAll_from_empty]
  refine ⟨by simp [fireError, findTag, loadErrorMsg, scriptUrlOf,
      String.append_assoc],
    fun reg s => by simp [effectBody], fun d w hreg hf => ?_⟩
  unfold scriptEffect
  rw [hreg]
  simp only [Bool.false_eq_true, if_false]
  cases hft : findTag w.tags (scriptUrlOf baseUrl) with
  | none => exact absurd hft hf
  | some t =>
    simp [addListeners_urls]

theorem c8_load_failure_witness :
    fireError (scriptUrlOf "http://h") (mountAll [1, 2] "http://h" initWorld) =
      ⟨false, [⟨scriptUrlOf "http://h", [1, 2], [1, 2]⟩], [],
       [1, 2].map fun d =>
         (d, "Failed to load Shaper script from " ++ "http://h" ++
             "/embed/shaper.js")⟩ ∧
    (∀ (reg : Bool) (s : MState),
      (effectBody false reg s).2 = [] ∧
      (effectBody false reg s).1.dashboard = s.dashboard) ∧
    (∀ (d : Nat) (w : LoaderWorld), w.registered = false →
      findTag w.tags (scriptUrlOf "http://h") ≠ none →
      (scriptEffect d "http://h" w).tags.map ScriptTag.url =
        w.tags.map ScriptTag.url) :=
  c8_load_failure [2] 1 "http://h"

theorem countCreated_append (es fs : List MEvent) (i : Nat) :
    countCreated (es ++ fs) i = countCreated es i + countCreated fs i := by
  simp [countCreated, List.countP_append]

theorem countDestroyed_append (es fs : List MEvent) (i : Nat) :
    countDestroyed (es ++ fs) i = countDestroyed es i + countDestroyed fs i := by
  simp [countDestroyed, List.countP_append]

theorem countCreated_destroyed_single (i j : Nat) :
    countCreated [MEvent.destroyed j] i = 0 := by
  simp [countCreated, List.countP_cons, isCreated]

theorem countDestroyed_created_single (i j : Nat) :
    countDestroyed [MEvent.created j] i = 0 := by
  simp [countDestroyed, List.countP_cons, isDestroyed]

theorem countCreated_created_single (i j : Nat) :
    countCreated [MEvent.created j] i = if j = i then 1 else 0 := by
  simp only [countCreated, List.countP_cons, List.countP_nil, isCreated,
    Nat.zero_add]
  by_cases h : j = i <;> simp [h]

theorem countDestroyed_destroyed_single (i j : Nat) :
    countDestroyed [MEvent.destroyed j] i = if j = i then 1 else 0 := by
  simp only [countDestroyed, List.countP_cons, List.countP_nil, isDestroyed,
    Nat.zero_add]
  by_cases h : j = i <;> simp [h]

theorem MInv_init : MInv initM [] := by
  refine ⟨fun i => ?_, fun i => ?_, fun i hi => by simp [initM] at hi⟩ <;>
    simp [countCreated, countDestroyed, initM]

theorem MInv_runCleanup (s : MState) (es : List MEvent) (h : MInv s es) :
    MInv (runCleanup s).1 (es ++ (runCleanup s).2) ∧
    (runCleanup s).1.dashboard = none := by
  obtain ⟨h1, h2, h3⟩ := h
  by_cases hc : s.cleanupRegistered = true
  · cases hdash : s.dashboard with
    | none =>
      have hstep : runCleanup s =
          (⟨none, s.nextInst, false, s.prevDeps⟩, []) := by
        simp [runCleanup, hc, hdash]
      rw [hstep]
      refine ⟨⟨fun k => ?_, fun k => ?_, fun k hk => by simp at hk⟩, rfl⟩
      · simpa [countCreated_append, countCreated] using h1 k
      · have hk2 := h2 k
        rw [hdash] at hk2
        simpa [countDestroyed_append, countDestroyed] using hk2
    | some i =>
      have hi := h3 i hdash
      have hstep : runCleanup s =
          (⟨none, s.nextInst, false, s.prevDeps⟩, [MEvent.destroyed i]) := by
        simp [runCleanup, hc, hdash]
      rw [hstep]
      refine ⟨⟨fun k => ?_, fun k => ?_, fun k hk => by simp at hk⟩, rfl⟩
      · simpa [countCreated_append, countCreated_destroyed_single] using h1 k
      · rw [countDestroyed_append, countDestroyed_destroyed_single]
        have hk2 := h2 k
        rw [hdash] at hk2
        by_cases hik : i = k
        · subst hik
          simp only [Option.some.injEq, if_pos rfl] at hk2
          simp [hk2, hi.1]
        · have hne : ¬(some i = some k) := by simpa using hik
          rw [if_neg hne] at hk2
          simp [hk2, hik]
  · have hd : s.dashboard = none := by
      cases hdash : s.dashboard with
      | none => rfl
      | some i => exact absurd (h3 i hdash).2 hc
    have hcl : s.cleanupRegistered = false := by
      cases hcc : s.cleanupRegistered
      · rfl
      · exact absurd hcc hc
    have hstep : runCleanup s = (s, []) := by
      simp [runCleanup, hcl]
    rw [hstep]
    exact ⟨⟨fun k => by simpa using h1 k, fun k => by simpa using h2 k,
      h3⟩, hd⟩

theorem MInv_effectBody (sl reg : Bool) (s : MState) (es : List MEvent)
    (h : MInv s es) (hd : s.dashboard = none) :
    MInv (effectBody sl reg s).1 (es ++ (effectBody sl reg s).2) := by
  obtain ⟨h1, h2, h3⟩ := h
  unfold effectBody
  split
  · exact ⟨fun k => by simpa [countCreated_append, countCreated] using h1 k,
      fun k => by simpa [countDestroyed_append, countDestroyed] using h2 k,
      fun k hk => by rw [hd] at hk; cases hk⟩
  · refine ⟨fun k => ?_, fun k => ?_, fun k hk => ?_⟩
    · rw [countCreated_append, countCreated_created_single, h1 k]
      by_cases hk : s.nextInst = k
      · subst hk
        simp
      · have : k < s.nextInst + 1 ↔ k < s.nextInst := by omega
        simp [hk, this]
    · rw [countDestroyed_append, countDestroyed_created_single, h2 k, hd]
      by_cases hk : s.nextInst = k
      · subst hk
        simp
      · have hne : ¬(some s.nextInst = some k) := by simpa using hk
        have : k < s.nextInst + 1 ↔ k < s.nextInst := by omega
        simp only [hne, if_false, this, Nat.add_zero]
        rfl
    · simp only [Option.some.injEq] at hk
      subst hk
      exact ⟨Nat.lt_succ_self s.nextInst, rfl⟩

theorem MInv_setDeps (deps : Bool × String × String) (s : MState)
    (es : List MEvent) (h : MInv s es) : MInv (setDeps deps s) es := h

theorem MInv_renderStep (sl reg : Bool) (b d : String) (s : MState)
    (es : List MEvent) (h : MInv s es) :
    MInv (renderStep sl reg b d s).1 (es ++ (renderStep sl reg b d s).2) := by
  unfold renderStep
  split
  · simpa using h
  · obtain ⟨hinv1, hdash1⟩ := MInv_runCleanup s es h
    have hbody := MInv_effectBody sl reg (setDeps (sl, b, d) (runCleanup s).1)
      (es ++ (runCleanup s).2) (MInv_setDeps _ _ _ hinv1) hdash1
    simpa [List.append_assoc] using hbody

theorem runRenders_nil (s : MState) : runRenders s [] = (s, []) := rfl

theorem runRenders_cons (s : MState) (r : RenderInput)
    (rest : List RenderInput) :
    runRenders s (r :: rest) =
      ((runRenders
          (renderStep r.scriptLoaded r.registered r.baseUrl r.did s).1 rest).1,
       (renderStep r.scriptLoaded r.registered r.baseUrl r.did s).2 ++
         (runRenders
           (renderStep r.scriptLoaded r.registered r.baseUrl r.did s).1
           rest).2) := rfl

theorem MInv_runRenders (rs : List RenderInput) (s : MState) (es : List MEvent)
    (h : MInv s es) :
    MInv (runRenders s rs).1 (es ++ (runRenders s rs).2) := by
  induction rs generalizing s es with
  | nil =>
    rw [runRenders_nil]
    simpa using h
  | cons r rest ih =>
    have h1 := MInv_renderStep r.scriptLoaded r.registered r.baseUrl r.did s es h
    have h2 := ih (renderStep r.scriptLoaded r.registered r.baseUrl r.did s).1
      (es ++ (renderStep r.scriptLoaded r.registered r.baseUrl r.did s).2) h1
    rw [runRenders_cons]
    simpa [List.append_assoc] using h2

theorem MInv_lifetime (rs : List RenderInput) :
    ∃ n, (∀ i, countCreated (runLifetime rs) i = if i < n then 1 else 0) ∧
         (∀ i, countDestroyed (runLifetime rs) i = if i < n then 1 else 0) := by
  have h0 := MInv_runRenders rs initM [] MInv_init
  rw [List.nil_append] at h0
  obtain ⟨⟨h1, h2, _⟩, hnone⟩ :=
    MInv_runCleanup (runRenders initM rs).1 (runRenders initM rs).2 h0
  refine ⟨(runCleanup (runRenders initM rs).1).1.nextInst,
    fun i => ?_, fun i => ?_⟩
  · exact h1 i
  · have := h2 i
    rw [hnone] at this
    simpa using this

/-- C3 (claim as stated, refuted at a concrete trace): in `idChangeTrace` the
component goes Live on the second render (instance 0 created) and the third
render changes only the `id` prop, yet the run destroys instance 0 and
constructs instance 1 — a mutable-prop change does destroy and reconstruct
the Instance, and the Instance is constructed twice in one mount. -/
theorem c3_counterexample :
    (runRenders initM idChangeTrace).2 =
      [MEvent.created 0, MEvent.destroyed 0, MEvent.created 1] := by
  decide

/-- C3 amended: once Live, a render whose dependency triple
`(scriptLoaded, baseUrl, id)` is unchanged never destroys or reconstructs the
Instance (the effect is skipped entirely); changes to `vars` (and callback
props, which only rewrite refs) are propagated through `update` alone and
never touch the Instance — only a change to `scriptLoaded`, `baseUrl` or `id`
destroys and reconstructs it. -/
theorem c3_update_without_reconstruction (s : MState) (sl reg : Bool)
    (b d : String) (h : s.prevDeps = some (sl, b, d)) (v : ShaperDashboardVars)
    (vs : VarsState) :
    renderStep sl reg b d s = (s, []) ∧
    (varsEffect v vs).1.live = vs.live := by
  constructor
  · unfold renderStep
    rw [if_pos h]
  · exact varsEffect_live v vs

theorem c3_update_without_reconstruction_witness :
    renderStep true true "b" "d" ⟨some 0, 1, true, some (true, "b", "d")⟩ =
      (⟨some 0, 1, true, some (true, "b", "d")⟩, []) ∧
    (varsEffect (some exB) (varsEffect (some exA) exLiveState).1).1.live =
      (varsEffect (some exA) exLiveState).1.live :=
  c3_update_without_reconstruction ⟨some 0, 1, true, some (true, "b", "d")⟩
    true true "b" "d" rfl (some exB) (varsEffect (some exA) exLiveState).1

/-- C7 (claim as stated, refuted at a concrete trace): across the single
mount→unmount lifetime of `idChangeTrace`, an Instance was created, yet
`destroy()` runs twice (once for each of the two instances the `id` change
produced), not exactly once. -/
theorem c7_counterexample :
    (runLifetime idChangeTrace).countP (fun e => match e with
      | MEvent.destroyed _ => true
      | MEvent.created _ => false) = 2 ∧
    (runLifetime idChangeTrace).countP (fun e => match e with
      | MEvent.created _ => true
      | MEvent.destroyed _ => false) = 2 := by
  decide

/-- C7 amended: across one mount→unmount lifetime, every Instance that was
created is destroyed exactly once (so with a single creation, `destroy()`
runs exactly once), an Instance is created at most once, no `destroy` occurs
for an Instance that was never created, and running the cleanup while no
instance is held (`dashboardRef.current` null — never created or already
destroyed) emits no `destroy` call. -/
theorem c7_destroy_exactly_once (rs : List RenderInput) (i : Nat) :
    countCreated (runLifetime rs) i ≤ 1 ∧
    countDestroyed (runLifetime rs) i = countCreated (runLifetime rs) i ∧
    (∀ s : MState, s.dashboard = none → (runCleanup s).2 = []) := by
  obtain ⟨n, hck, hdk⟩ := MInv_lifetime rs
  refine ⟨?_, ?_, fun s hs => ?_⟩
  · rw [hck i]
    split <;> omega
  · rw [hck i, hdk i]
  · unfold runCleanup
    rw [hs]
    split <;> rfl

theorem c7_destroy_exactly_once_witness :
    countCreated (runLifetime idChangeTrace) 0 ≤ 1 ∧
    countDestroyed (runLifetime idChangeTrace) 0 =
      countCreated (runLifetime idChangeTrace) 0 ∧
    (∀ s : MState, s.dashboard = none → (runCleanup s).2 = []) :=
  c7_destroy_exactly_once idChangeTrace 0
